import Mathlib

/-!
Verification of the EchoEar voice-assistant gateway server.

Shallow embedding of the core modules (app/audio_rate_ctrl.py, app/pipeline.py,
app/ws_server.py, app/recurrence.py, app/asr.py, app/scheduler.py) into Lean.
Asynchronous callbacks and external providers are modelled as oracles indexed
by call count; wall-clock readings of time.monotonic() are modelled as a
millisecond oracle relative to the drain start timestamp.
-/

namespace EchoEar

/-- An opaque Opus packet, modelled as its byte sequence. -/
abbrev Frame := List Nat

/-- Record of one send attempt inside AudioRateController.drain:
the index of the frame in the queue at drain start, the target time offset
from the captured start timestamp (milliseconds), the monotonic-clock reading
at this iteration, the instant the send actually happens (after sleeping when
the target lies in the future), and the boolean result of the send callback. -/
structure SendRec where
  idx : Nat
  target : Nat
  now : Nat
  waitUntil : Nat
  ok : Bool
deriving DecidableEq

/-- One observable event of AudioRateController.drain: an evaluation of the
abort predicate, or a send attempt. -/
inductive DrainEv where
  | check (k : Nat) (res : Bool)
  | send (r : SendRec)
deriving DecidableEq

/-- Project a send record out of a drain event. -/
def DrainEv.sendRec : DrainEv → Option SendRec
  | .send r => some r
  | .check _ _ => none

/-- The send records of an event trace, in order. -/
def sendRecs (evs : List DrainEv) : List SendRec :=
  evs.filterMap DrainEv.sendRec

/-- The boolean outcomes of the send attempts of an event trace, in order. -/
def sendOuts (evs : List DrainEv) : List Bool :=
  (sendRecs evs).map SendRec.ok

/-- Loop body of AudioRateController.drain (app/audio_rate_ctrl.py).
Arguments thread the Python local state: the remaining queue, the iteration
counter k (frames popped so far), the success counter sent, and the
consecutive-error counter. The abort predicate, the send callback and the
monotonic clock are oracles indexed by iteration. Returns the final value of
sent, the event trace, and the remaining queue. -/
def drainGo (D : Nat) (abortO sendO : Nat → Bool) (nowO : Nat → Nat) :
    List Frame → Nat → Nat → Nat → Nat × List DrainEv × List Frame
  | [], _, sent, _ => (sent, [], [])
  | f :: rest, k, sent, cerr =>
    if abortO k then
      (sent, [DrainEv.check k true], f :: rest)
    else if sendO k then
      ((drainGo D abortO sendO nowO rest (k+1) (sent+1) 0).1,
       DrainEv.check k false ::
         DrainEv.send ⟨k, sent * D, nowO k, max (nowO k) (sent * D), true⟩ ::
         (drainGo D abortO sendO nowO rest (k+1) (sent+1) 0).2.1,
       (drainGo D abortO sendO nowO rest (k+1) (sent+1) 0).2.2)
    else if cerr + 1 ≥ 3 then
      (sent,
       [DrainEv.check k false,
        DrainEv.send ⟨k, sent * D, nowO k, max (nowO k) (sent * D), false⟩],
       rest)
    else
      ((drainGo D abortO sendO nowO rest (k+1) sent (cerr+1)).1,
       DrainEv.check k false ::
         DrainEv.send ⟨k, sent * D, nowO k, max (nowO k) (sent * D), false⟩ ::
         (drainGo D abortO sendO nowO rest (k+1) sent (cerr+1)).2.1,
       (drainGo D abortO sendO nowO rest (k+1) sent (cerr+1)).2.2)

/-- AudioRateController.drain (app/audio_rate_ctrl.py lines 36-84).
D is self.frame_duration_ms. The Python float arithmetic
start_time + sent * (frame_duration_ms / 1000.0) is carried out here in exact
milliseconds relative to the captured start timestamp. -/
def drain (D : Nat) (frames : List Frame) (abortO sendO : Nat → Bool)
    (nowO : Nat → Nat) : Nat × List DrainEv × List Frame :=
  if frames.length = 0 then (0, [], frames)
  else drainGo D abortO sendO nowO frames 0 0 0

/-- Number of true entries of a boolean list. -/
def okCount : List Bool → Nat
  | [] => 0
  | b :: l => okCount l + (if b then 1 else 0)

theorem sendRecs_nil : sendRecs [] = [] := rfl

theorem sendRecs_check (k : Nat) (b : Bool) (l : List DrainEv) :
    sendRecs (DrainEv.check k b :: l) = sendRecs l := rfl

theorem sendRecs_send (r : SendRec) (l : List DrainEv) :
    sendRecs (DrainEv.send r :: l) = r :: sendRecs l := rfl

theorem sendOuts_nil : sendOuts [] = [] := rfl

theorem sendOuts_check (k : Nat) (b : Bool) (l : List DrainEv) :
    sendOuts (DrainEv.check k b :: l) = sendOuts l := rfl

theorem sendOuts_send (r : SendRec) (l : List DrainEv) :
    sendOuts (DrainEv.send r :: l) = r.ok :: sendOuts l := rfl

theorem sendOuts_send_mk (k t n w : Nat) (b : Bool) (l : List DrainEv) :
    sendOuts (DrainEv.send ⟨k, t, n, w, b⟩ :: l) = b :: sendOuts l := rfl

theorem okCount_cons_true (l : List Bool) : okCount (true :: l) = okCount l + 1 := rfl

theorem okCount_cons_false (l : List Bool) : okCount (false :: l) = okCount l := rfl

theorem no_split_nil {α : Type} (pre : List α) (a : α) (post : List α) :
    ¬(([] : List α) = pre ++ a :: post) := by
  intro h
  have := congrArg List.length h
  simp only [List.length_nil, List.length_append, List.length_cons] at this
  omega

theorem okCount_le_length (l : List Bool) : okCount l ≤ l.length := by
  induction l with
  | nil => simp [okCount]
  | cons b l ih =>
    simp only [okCount, List.length_cons]
    split <;> omega

/-- The returned count accumulates exactly the successful sends. -/
theorem drainGo_count (D : Nat) (aO sO : Nat → Bool) (nO : Nat → Nat) :
    ∀ (fs : List Frame) (k sent cerr : Nat),
      (drainGo D aO sO nO fs k sent cerr).1 =
        sent + okCount (sendOuts (drainGo D aO sO nO fs k sent cerr).2.1) := by
  intro fs
  induction fs with
  | nil => intro k sent cerr; simp [drainGo, sendOuts_nil, okCount]
  | cons f rest ih =>
    intro k sent cerr
    cases ha : aO k with
    | true => simp [drainGo, ha, sendOuts_nil, sendOuts_check, okCount]
    | false =>
      cases hs : sO k with
      | true =>
        simp only [drainGo, ha, hs, Bool.false_eq_true, if_false, if_true,
          sendOuts_check, sendOuts_send, okCount_cons_true]
        rw [ih]
        omega
      | false =>
        by_cases hc : cerr + 1 ≥ 3
        · simp [drainGo, ha, hs, hc, sendOuts_check, sendOuts_send, sendOuts_nil,
            okCount_cons_false, okCount]
        · simp only [drainGo, ha, hs, Bool.false_eq_true, if_false, hc,
            sendOuts_check, sendOuts_send, okCount_cons_false]
          rw [ih]

/-- At most one send attempt per queued frame. -/
theorem drainGo_outs_length (D : Nat) (aO sO : Nat → Bool) (nO : Nat → Nat) :
    ∀ (fs : List Frame) (k sent cerr : Nat),
      (sendOuts (drainGo D aO sO nO fs k sent cerr).2.1).length ≤ fs.length := by
  intro fs
  induction fs with
  | nil => intro k sent cerr; simp [drainGo, sendOuts_nil]
  | cons f rest ih =>
    intro k sent cerr
    cases ha : aO k with
    | true => simp [drainGo, ha, sendOuts_check, sendOuts_nil]
    | false =>
      cases hs : sO k with
      | true =>
        simp only [drainGo, ha, hs, Bool.false_eq_true, if_false, if_true,
          sendOuts_check, sendOuts_send, List.length_cons]
        exact Nat.succ_le_succ (ih (k+1) (sent+1) 0)
      | false =>
        by_cases hc : cerr + 1 ≥ 3
        · simp [drainGo, ha, hs, hc, sendOuts_check, sendOuts_send, sendOuts_nil]
        · simp only [drainGo, ha, hs, Bool.false_eq_true, if_false, hc,
            sendOuts_check, sendOuts_send, List.length_cons]
          exact Nat.succ_le_succ (ih (k+1) sent (cerr+1))

/-- Consecutive-failure cutoff invariant: with cerr current consecutive
failures and r = 3 - cerr remaining allowed ones, a prefix of r failures ends
the trace, and any window of 3 consecutive failures starting later ends it. -/
theorem drainGo_stop (D : Nat) (aO sO : Nat → Bool) (nO : Nat → Nat) :
    ∀ (fs : List Frame) (k sent cerr r : Nat), cerr + r = 3 → 0 < r →
      (((sendOuts (drainGo D aO sO nO fs k sent cerr).2.1).take r
          = List.replicate r false →
        (sendOuts (drainGo D aO sO nO fs k sent cerr).2.1).length = r) ∧
       (∀ j : Nat,
         ((sendOuts (drainGo D aO sO nO fs k sent cerr).2.1).drop (j+1)).take 3
            = [false, false, false] →
         (sendOuts (drainGo D aO sO nO fs k sent cerr).2.1).length = j + 4)) := by
  intro fs
  induction fs with
  | nil =>
    intro k sent cerr r hr hrpos
    constructor
    · intro h
      have hlen := congrArg List.length h
      simp [drainGo, sendOuts_nil] at hlen ⊢
      omega
    · intro j h
      have hlen := congrArg List.length h
      simp [drainGo, sendOuts_nil] at hlen
  | cons f rest ih =>
    intro k sent cerr r hr hrpos
    cases ha : aO k with
    | true =>
      constructor
      · intro h
        have hlen := congrArg List.length h
        simp [drainGo, ha, sendOuts_check, sendOuts_nil] at hlen ⊢
        omega
      · intro j h
        have hlen := congrArg List.length h
        simp [drainGo, ha, sendOuts_check, sendOuts_nil] at hlen
    | false =>
      cases hs : sO k with
      | true =>
        have ihr := ih (k+1) (sent+1) 0 3 (by omega) (by omega)
        simp only [drainGo, ha, hs, Bool.false_eq_true, if_false, if_true,
          sendOuts_check, sendOuts_send_mk] at ihr ⊢
        constructor
        · intro h
          obtain ⟨r', rfl⟩ : ∃ r', r = r' + 1 := ⟨r - 1, by omega⟩
          rw [List.take_succ_cons, List.replicate_succ] at h
          exact absurd (List.head_eq_of_cons_eq h) (by simp)
        · intro j h
          cases j with
          | zero =>
            simp only [List.drop_succ_cons, List.drop_zero] at h
            have hlen := ihr.1 (by
              rw [show (List.replicate 3 false : List Bool)
                  = [false, false, false] from rfl]
              exact h)
            simp only [List.length_cons, hlen]
          | succ j' =>
            simp only [List.drop_succ_cons] at h
            have hlen := ihr.2 j' h
            simp only [List.length_cons, hlen]
      | false =>
        by_cases hc : cerr + 1 ≥ 3
        · have hr1 : r = 1 := by omega
          subst hr1
          constructor
          · intro _
            simp [drainGo, ha, hs, hc, sendOuts_check, sendOuts_send_mk, sendOuts_nil]
          · intro j h
            have hlen := congrArg List.length h
            simp [drainGo, ha, hs, hc, sendOuts_check, sendOuts_send_mk,
              sendOuts_nil] at hlen
        · have hr2 : 2 ≤ r := by omega
          have ihr := ih (k+1) sent (cerr+1) (r-1) (by omega) (by omega)
          simp only [drainGo, ha, hs, Bool.false_eq_true, if_false, hc,
            sendOuts_check, sendOuts_send_mk] at ihr ⊢
          constructor
          · intro h
            obtain ⟨r', hrr⟩ : ∃ r', r = r' + 1 := ⟨r - 1, by omega⟩
            subst hrr
            rw [List.take_succ_cons, List.replicate_succ] at h
            have htail := List.tail_eq_of_cons_eq h
            have hlen := ihr.1 htail
            simp only [List.length_cons, hlen]
            omega
          · intro j h
            cases j with
            | zero =>
              simp only [List.drop_succ_cons, List.drop_zero] at h
              -- a window of three failures cannot start right at the tail
              -- while cerr+1 failures are already pending: the shorter
              -- prefix window would have ended the trace earlier.
              have hlen3 : 3 ≤ (sendOuts (drainGo D aO sO nO rest (k+1) sent
                  (cerr+1)).2.1).length := by
                have hl := congrArg List.length h
                simp only [List.length_take, List.length_cons,
                  List.length_nil] at hl
                omega
              have hpre : (sendOuts (drainGo D aO sO nO rest (k+1) sent
                  (cerr+1)).2.1).take (r-1) = List.replicate (r-1) false := by
                have h1 : (sendOuts (drainGo D aO sO nO rest (k+1) sent
                    (cerr+1)).2.1).take (r-1)
                    = ((sendOuts (drainGo D aO sO nO rest (k+1) sent
                        (cerr+1)).2.1).take 3).take (r-1) := by
                  rw [List.take_take, Nat.min_eq_left (by omega)]
                rw [h1, h,
                  show ([false, false, false] : List Bool)
                    = List.replicate 3 false from rfl,
                  List.take_replicate, Nat.min_eq_left (by omega)]
              have hcontra := ihr.1 hpre
              omega
            | succ j' =>
              simp only [List.drop_succ_cons] at h
              have hlen := ihr.2 j' h
              simp only [List.length_cons, hlen]

/-- The abort predicate evaluated false at every iteration up to and
including the one of any recorded send. -/
theorem drainGo_abort_false (D : Nat) (aO sO : Nat → Bool) (nO : Nat → Nat) :
    ∀ (fs : List Frame) (k0 sent cerr : Nat),
      ∀ rec ∈ sendRecs (drainGo D aO sO nO fs k0 sent cerr).2.1,
        ∀ j, k0 ≤ j → j ≤ rec.idx → aO j = false := by
  intro fs
  induction fs with
  | nil => intro k0 sent cerr rec hrec; simp [drainGo, sendRecs_nil] at hrec
  | cons f rest ih =>
    intro k0 sent cerr rec hrec j hj1 hj2
    cases ha : aO k0 with
    | true => simp [drainGo, ha, sendRecs_check, sendRecs_nil] at hrec
    | false =>
      rcases Nat.eq_or_lt_of_le hj1 with hjeq | hjlt
      · exact hjeq ▸ ha
      · cases hs : sO k0 with
        | true =>
          simp only [drainGo, ha, hs, Bool.false_eq_true, if_false, if_true,
            sendRecs_check, sendRecs_send, List.mem_cons] at hrec
          rcases hrec with hrec | hrec
          · subst hrec; simp at hj2; omega
          · exact ih (k0+1) (sent+1) 0 rec hrec j hjlt hj2
        | false =>
          by_cases hc : cerr + 1 ≥ 3
          · simp only [drainGo, ha, hs, Bool.false_eq_true, if_false, hc,
              if_true, sendRecs_check, sendRecs_send, sendRecs_nil,
              List.mem_cons, List.not_mem_nil, or_false] at hrec
            subst hrec; simp at hj2; omega
          · simp only [drainGo, ha, hs, Bool.false_eq_true, if_false, hc,
              sendRecs_check, sendRecs_send, List.mem_cons] at hrec
            rcases hrec with hrec | hrec
            · subst hrec; simp at hj2; omega
            · exact ih (k0+1) sent (cerr+1) rec hrec j hjlt hj2

/-- The target of every send attempt equals (accumulated successes) · D. -/
theorem drainGo_target (D : Nat) (aO sO : Nat → Bool) (nO : Nat → Nat) :
    ∀ (fs : List Frame) (k sent cerr : Nat) (pre : List SendRec) (rec : SendRec)
      (post : List SendRec),
      sendRecs (drainGo D aO sO nO fs k sent cerr).2.1 = pre ++ rec :: post →
      rec.target = (sent + okCount (pre.map SendRec.ok)) * D := by
  intro fs
  induction fs with
  | nil =>
    intro k sent cerr pre rec post h
    simp only [drainGo, sendRecs_nil] at h
    exact absurd h (no_split_nil pre rec post)
  | cons f rest ih =>
    intro k sent cerr pre rec post h
    cases ha : aO k with
    | true =>
      simp only [drainGo, ha, if_true, sendRecs_check, sendRecs_nil] at h
      exact absurd h (no_split_nil pre rec post)
    | false =>
      cases hs : sO k with
      | true =>
        simp only [drainGo, ha, hs, Bool.false_eq_true, if_false, if_true,
          sendRecs_check, sendRecs_send] at h
        cases pre with
        | nil =>
          simp only [List.nil_append] at h
          have hhd := List.head_eq_of_cons_eq h
          rw [← hhd]
          simp [okCount]
        | cons p ps =>
          simp only [List.cons_append] at h
          have hp := List.head_eq_of_cons_eq h
          have htail := List.tail_eq_of_cons_eq h
          have hih := ih (k+1) (sent+1) 0 ps rec post htail
          rw [hih, ← hp]
          simp only [List.map_cons]
          rw [okCount_cons_true]
          congr 1
          omega
      | false =>
        by_cases hc : cerr + 1 ≥ 3
        · simp only [drainGo, ha, hs, Bool.false_eq_true, if_false, hc,
            if_true, sendRecs_check, sendRecs_send, sendRecs_nil] at h
          cases pre with
          | nil =>
            simp only [List.nil_append] at h
            have hhd := List.head_eq_of_cons_eq h
            rw [← hhd]
            simp [okCount]
          | cons p ps =>
            simp only [List.cons_append] at h
            have htail := List.tail_eq_of_cons_eq h
            exact absurd htail (no_split_nil ps rec post)
        · simp only [drainGo, ha, hs, Bool.false_eq_true, if_false, hc,
            sendRecs_check, sendRecs_send] at h
          cases pre with
          | nil =>
            simp only [List.nil_append] at h
            have hhd := List.head_eq_of_cons_eq h
            rw [← hhd]
            simp [okCount]
          | cons p ps =>
            simp only [List.cons_append] at h
            have hp := List.head_eq_of_cons_eq h
            have htail := List.tail_eq_of_cons_eq h
            have hih := ih (k+1) sent (cerr+1) ps rec post htail
            rw [hih, ← hp]
            simp only [List.map_cons]
            rw [okCount_cons_false]

/-- Every recorded send waits until max(now, target). -/
theorem drainGo_wait (D : Nat) (aO sO : Nat → Bool) (nO : Nat → Nat) :
    ∀ (fs : List Frame) (k sent cerr : Nat),
      ∀ rec ∈ sendRecs (drainGo D aO sO nO fs k sent cerr).2.1,
        rec.waitUntil = max rec.now rec.target := by
  intro fs
  induction fs with
  | nil => intro k sent cerr rec hrec; simp [drainGo, sendRecs_nil] at hrec
  | cons f rest ih =>
    intro k sent cerr rec hrec
    cases ha : aO k with
    | true => simp [drainGo, ha, sendRecs_check, sendRecs_nil] at hrec
    | false =>
      cases hs : sO k with
      | true =>
        simp only [drainGo, ha, hs, Bool.false_eq_true, if_false, if_true,
          sendRecs_check, sendRecs_send, List.mem_cons] at hrec
        rcases hrec with hrec | hrec
        · subst hrec; rfl
        · exact ih (k+1) (sent+1) 0 rec hrec
      | false =>
        by_cases hc : cerr + 1 ≥ 3
        · simp only [drainGo, ha, hs, Bool.false_eq_true, if_false, hc,
            if_true, sendRecs_check, sendRecs_send, sendRecs_nil,
            List.mem_cons, List.not_mem_nil, or_false] at hrec
          subst hrec; rfl
        · simp only [drainGo, ha, hs, Bool.false_eq_true, if_false, hc,
            sendRecs_check, sendRecs_send, List.mem_cons] at hrec
          rcases hrec with hrec | hrec
          · subst hrec; rfl
          · exact ih (k+1) sent (cerr+1) rec hrec

/-- Schedule key of a send record: everything except the clock readings. -/
def SendRec.sched (r : SendRec) : Nat × Nat × Bool := (r.idx, r.target, r.ok)

/-- Control flow and pacing targets are independent of the monotonic clock
readings: only the now / waitUntil fields can differ. -/
theorem drainGo_now_indep (D : Nat) (aO sO : Nat → Bool) (n1 n2 : Nat → Nat) :
    ∀ (fs : List Frame) (k sent cerr : Nat),
      (drainGo D aO sO n1 fs k sent cerr).1 = (drainGo D aO sO n2 fs k sent cerr).1 ∧
      (sendRecs (drainGo D aO sO n1 fs k sent cerr).2.1).map SendRec.sched
        = (sendRecs (drainGo D aO sO n2 fs k sent cerr).2.1).map SendRec.sched ∧
      (drainGo D aO sO n1 fs k sent cerr).2.2 = (drainGo D aO sO n2 fs k sent cerr).2.2 := by
  intro fs
  induction fs with
  | nil => intro k sent cerr; simp [drainGo]
  | cons f rest ih =>
    intro k sent cerr
    cases ha : aO k with
    | true => simp [drainGo, ha]
    | false =>
      cases hs : sO k with
      | true =>
        have hih := ih (k+1) (sent+1) 0
        simp only [drainGo, ha, hs, Bool.false_eq_true, if_false, if_true,
          sendRecs_check, sendRecs_send, List.map_cons]
        exact ⟨hih.1, by simp only [SendRec.sched]; rw [hih.2.1], hih.2.2⟩
      | false =>
        by_cases hc : cerr + 1 ≥ 3
        · simp [drainGo, ha, hs, hc, sendRecs_check, sendRecs_send,
            sendRecs_nil, SendRec.sched]
        · have hih := ih (k+1) sent (cerr+1)
          simp only [drainGo, ha, hs, Bool.false_eq_true, if_false, hc,
            sendRecs_check, sendRecs_send, List.map_cons]
          exact ⟨hih.1, by simp only [SendRec.sched]; rw [hih.2.1], hih.2.2⟩

/-- C10: AudioRateController.drain called with an empty queue returns 0
immediately, records no abort-predicate evaluation and no send attempt,
and leaves the queue empty. -/
theorem C10_drain_empty_queue (D : Nat) (abortO sendO : Nat → Bool)
    (nowO : Nat → Nat) :
    drain D [] abortO sendO nowO = (0, [], []) := rfl

/-- C3: drain returns exactly the number of send invocations that returned
true, never exceeding the number of queued frames; successes reset and
failures increment the consecutive-error counter (see drainGo), so any window
of three consecutive failed sends ends the send trace: drain stops there and
returns the count accumulated so far. -/
theorem C3_drain_count_and_cutoff (D : Nat) (frames : List Frame)
    (abortO sendO : Nat → Bool) (nowO : Nat → Nat) :
    (drain D frames abortO sendO nowO).1
        = okCount (sendOuts (drain D frames abortO sendO nowO).2.1) ∧
    (drain D frames abortO sendO nowO).1 ≤ frames.length ∧
    ∀ j : Nat,
      ((sendOuts (drain D frames abortO sendO nowO).2.1).drop j).take 3
          = [false, false, false] →
      (sendOuts (drain D frames abortO sendO nowO).2.1).length = j + 3 := by
  unfold drain
  by_cases h0 : frames.length = 0
  · rw [if_pos h0]
    refine ⟨rfl, by omega, ?_⟩
    intro j h
    simp [sendOuts_nil] at h
  · rw [if_neg h0]
    refine ⟨?_, ?_, ?_⟩
    · have h1 := drainGo_count D abortO sendO nowO frames 0 0 0
      simpa using h1
    · have h1 := drainGo_count D abortO sendO nowO frames 0 0 0
      have h2 := okCount_le_length
        (sendOuts (drainGo D abortO sendO nowO frames 0 0 0).2.1)
      have h3 := drainGo_outs_length D abortO sendO nowO frames 0 0 0
      omega
    · intro j h
      cases j with
      | zero =>
        simp only [List.drop_zero] at h
        exact (drainGo_stop D abortO sendO nowO frames 0 0 0 3 (by omega)
          (by omega)).1 (by
            rw [show (List.replicate 3 false : List Bool)
                = [false, false, false] from rfl]
            exact h)
      | succ j' =>
        have := (drainGo_stop D abortO sendO nowO frames 0 0 0 3 (by omega)
          (by omega)).2 j' h
        omega

/-- Witness for C3 at a concrete run: four queued frames with every send
failing; drain stops after the third consecutive failure and returns 0. -/
theorem C3_witness :
    (drain 60 [[0], [1], [2], [3]] (fun _ => false) (fun _ => false)
        (fun _ => 0)).1
      = okCount (sendOuts (drain 60 [[0], [1], [2], [3]] (fun _ => false)
          (fun _ => false) (fun _ => 0)).2.1) ∧
    (sendOuts (drain 60 [[0], [1], [2], [3]] (fun _ => false) (fun _ => false)
        (fun _ => 0)).2.1).length = 0 + 3 :=
  ⟨(C3_drain_count_and_cutoff 60 [[0], [1], [2], [3]] (fun _ => false)
      (fun _ => false) (fun _ => 0)).1,
   (C3_drain_count_and_cutoff 60 [[0], [1], [2], [3]] (fun _ => false)
      (fun _ => false) (fun _ => 0)).2.2 0 (by decide)⟩

/-- C2 as stated is false on the code: pacing uses the count of successful
sends, not the frame index. With two queued frames, the first send failing
and the second succeeding, the frame of index 1 is scheduled at target
offset 0, not at 1 * 60. -/
theorem C2_counterexample :
    ¬ (∀ rec ∈ sendRecs (drain 60 [[0], [1]] (fun _ => false)
        (fun k => k != 0) (fun _ => 0)).2.1, rec.target = rec.idx * 60) := by
  decide

/-- C2 (amended): the target offset of every send attempt is
(number of earlier successful sends) * frame_duration_ms, which equals the
frame index whenever no earlier send failed; drain sleeps until the target
when the clock reading lies before it; and the schedule (indices, targets,
outcomes) does not depend on the clock readings, hence not on actual send
completion times. -/
theorem C2_pacing_amended (D : Nat) (frames : List Frame)
    (abortO sendO : Nat → Bool) (nowO nowO2 : Nat → Nat) :
    (∀ (pre : List SendRec) (rec : SendRec) (post : List SendRec),
        sendRecs (drain D frames abortO sendO nowO).2.1 = pre ++ rec :: post →
        rec.target = okCount (pre.map SendRec.ok) * D) ∧
    (∀ rec ∈ sendRecs (drain D frames abortO sendO nowO).2.1,
        rec.now < rec.target → rec.waitUntil = rec.target) ∧
    (sendRecs (drain D frames abortO sendO nowO).2.1).map SendRec.sched
        = (sendRecs (drain D frames abortO sendO nowO2).2.1).map SendRec.sched := by
  refine ⟨?_, ?_, ?_⟩
  · intro pre rec post h
    unfold drain at h
    by_cases h0 : frames.length = 0
    · rw [if_pos h0] at h
      exact absurd h (no_split_nil pre rec post)
    · rw [if_neg h0] at h
      have := drainGo_target D abortO sendO nowO frames 0 0 0 pre rec post h
      simpa using this
  · intro rec hrec hlt
    unfold drain at hrec
    by_cases h0 : frames.length = 0
    · rw [if_pos h0] at hrec
      simp [sendRecs_nil] at hrec
    · rw [if_neg h0] at hrec
      have := drainGo_wait D abortO sendO nowO frames 0 0 0 rec hrec
      omega
  · unfold drain
    by_cases h0 : frames.length = 0
    · rw [if_pos h0, if_pos h0]
    · rw [if_neg h0, if_neg h0]
      exact (drainGo_now_indep D abortO sendO nowO nowO2 frames 0 0 0).2.1

/-- Witness for C2 (amended) at a concrete run: one frame, sent successfully,
scheduled at target 0 with clock reading 0. -/
theorem C2_witness :
    (⟨0, 0, 0, 0, true⟩ : SendRec).target
        = okCount (([] : List SendRec).map SendRec.ok) * 60 :=
  (C2_pacing_amended 60 [[7]] (fun _ => false) (fun _ => true)
      (fun _ => 0) (fun _ => 0)).1 [] ⟨0, 0, 0, 0, true⟩ [] (by decide)

/-! ### Hallucination filter (app/asr.py) -/

/-- Python str.lower. Lean Char.toLower maps ASCII letters; every table entry
below is ASCII or CJK, and Python lower is likewise the identity on CJK. -/
def pyLower (s : String) : String := ⟨s.data.map Char.toLower⟩

/-- Python str.rstrip with the punctuation set of _filter_hallucination. -/
def rstripPunct (s : String) : String :=
  ⟨(s.data.reverse.dropWhile fun c =>
      (['.', '!', '?', ',', '。', '！', '？', '，'] : List Char).contains c).reverse⟩

/-- The exact-match table _HALLUCINATIONS of app/asr.py. -/
def hallucinations : List String :=
  ["thank you", "thank you for watching", "thanks for watching",
   "thanks", "bye", "goodbye", "all right", "you", "the end",
   "subscribe", "like and subscribe", "see you next time",
   "so", "okay", "yeah", "yes", "no", "hmm", "uh",
   "谢谢观看", "感谢观看", "请订阅", "点赞", "订阅",
   "谢谢大家", "谢谢", "再见", "好的", "嗯",
   "字幕", "字幕由", "字幕提供"]

/-- The substring-match table _HALLUCINATION_SUBSTRINGS of app/asr.py. -/
def hallucinationSubstrings : List String :=
  ["点赞", "订阅", "转发", "打赏", "关注",
   "字幕由", "字幕提供", "subtitles by",
   "thank you for watching", "thanks for watching",
   "like and subscribe",
   "明镜", "栏目", "支持明镜",
   "请不吝", "视频来源"]

/-- Character-list sequence test: the first list begins the second. -/
def seqStarts : List Char → List Char → Bool
  | [], _ => true
  | _ :: _, [] => false
  | p :: ps, h :: hs => p == h && seqStarts ps hs

/-- Python substring containment (pattern in haystack) on character lists. -/
def containsSeq (pat : List Char) : List Char → Bool
  | [] => seqStarts pat []
  | c :: rest => seqStarts pat (c :: rest) || containsSeq pat rest

/-- _filter_hallucination (app/asr.py lines 105-116): lowercase and
right-strip trailing punctuation, return the empty string on an exact-table
match, else on any substring-table match against the lowercased text, else
pass the text through unchanged. -/
def filter_hallucination (text : String) : String :=
  if hallucinations.contains (rstripPunct (pyLower text)) then ""
  else if hallucinationSubstrings.any fun p =>
      containsSeq p.data (pyLower text).data then ""
  else text

/-- C8: the hallucination filter is idempotent:
filter(filter(x)) = filter(x) for every input string x, where filter
lowercases, right-strips the punctuation set, blanks exact or substring
matches and otherwise passes the text through unchanged. -/
theorem C8_filter_idempotent (x : String) :
    filter_hallucination (filter_hallucination x) = filter_hallucination x := by
  have hcase : filter_hallucination x = "" ∨ filter_hallucination x = x := by
    unfold filter_hallucination
    split_ifs <;> simp
  rcases hcase with h | h
  · rw [h]
    decide
  · rw [h]
    exact h

/-! ### Recurrence rules (app/recurrence.py) -/

/-- Python str.strip() whitespace predicate (ASCII whitespace; the rule
strings involved contain no exotic Unicode whitespace). -/
def isPySpace (c : Char) : Bool :=
  c == ' ' || c == '\t' || c == '\n' || c == '\r' || c == '\x0b' || c == '\x0c'

/-- Python str.strip(). -/
def pyStrip (s : String) : String :=
  ⟨((s.data.dropWhile isPySpace).reverse.dropWhile isPySpace).reverse⟩

/-- A Python datetime value: days since 1970-01-01 plus the time-of-day
fields read and written by app/recurrence.py. -/
structure PyDateTime where
  day : Int
  hour : Nat
  minute : Nat
  second : Nat
  microsecond : Nat
deriving DecidableEq

/-- timedelta(days = n) addition. -/
def addDays (t : PyDateTime) (n : Int) : PyDateTime := { t with day := t.day + n }

/-- datetime.weekday(): Monday = 0 ... Sunday = 6. 1970-01-01 (day 0) was a
Thursday, weekday 3. -/
def weekday (t : PyDateTime) : Nat := ((t.day + 3) % 7).toNat

/-- datetime.replace(hour = h, minute = m, second = 0, microsecond = 0). -/
def PyDateTime.replaceTime (t : PyDateTime) (h m : Nat) : PyDateTime :=
  { t with hour := h, minute := m, second := 0, microsecond := 0 }

/-- Linearization used for datetime comparison. -/
def PyDateTime.toMicros (t : PyDateTime) : Int :=
  (((t.day * 24 + (t.hour : Int)) * 60 + (t.minute : Int)) * 60
      + (t.second : Int)) * 1000000 + (t.microsecond : Int)

theorem weekday_lt_seven (t : PyDateTime) : weekday t < 7 := by
  unfold weekday
  omega

theorem weekday_addDays_one (t : PyDateTime) :
    weekday (addDays t 1) = (weekday t + 1) % 7 := by
  unfold weekday addDays
  simp only
  omega

/-- The while-loop of the "weekdays" branch: add a day while the weekday is
Saturday or Sunday. -/
def skipWeekend (t : PyDateTime) : PyDateTime :=
  if 5 ≤ weekday t then skipWeekend (addDays t 1) else t
termination_by (if weekday t = 5 then 2 else if weekday t = 6 then 1 else 0 : Nat)
decreasing_by
  rename_i hw
  have h7 := weekday_lt_seven t
  have hs := weekday_addDays_one t
  rcases (by omega : weekday t = 5 ∨ weekday t = 6) with h | h <;>
    simp [hs, h]

theorem addDays_zero (t : PyDateTime) : addDays t 0 = t := by
  simp [addDays]

theorem addDays_addDays (t : PyDateTime) (a b : Int) :
    addDays (addDays t a) b = addDays t (a + b) := by
  simp [addDays, add_assoc]

/-- Closed description of skipWeekend: it adds the least number of days
landing on a weekday. -/
theorem skipWeekend_eq (t : PyDateTime) :
    ∃ d : Nat, skipWeekend t = addDays t d ∧ weekday (addDays t d) < 5 ∧
      ∀ j : Nat, j < d → 5 ≤ weekday (addDays t j) := by
  have h7 := weekday_lt_seven t
  have hc0 : ((0 : Nat) : Int) = (0 : Int) := rfl
  have hc1 : ((1 : Nat) : Int) = (1 : Int) := rfl
  have hc2 : ((2 : Nat) : Int) = (1 : Int) + 1 := rfl
  by_cases h5 : 5 ≤ weekday t
  · rcases (by omega : weekday t = 5 ∨ weekday t = 6) with h | h
    · have h1 : weekday (addDays t 1) = 6 := by
        rw [weekday_addDays_one, h]
      have h2 : weekday (addDays (addDays t 1) 1) = 0 := by
        rw [weekday_addDays_one, h1]
      refine ⟨2, ?_, ?_, ?_⟩
      · rw [skipWeekend, if_pos h5, skipWeekend, if_pos (by omega),
          skipWeekend, if_neg (by omega), hc2, ← addDays_addDays]
      · rw [hc2, ← addDays_addDays, h2]
        omega
      · intro j hj
        interval_cases j
        · rw [hc0, addDays_zero]
          omega
        · rw [hc1]
          omega
    · have h1 : weekday (addDays t 1) = 0 := by
        rw [weekday_addDays_one, h]
      refine ⟨1, ?_, ?_, ?_⟩
      · rw [skipWeekend, if_pos h5, skipWeekend, if_neg (by omega), hc1]
      · rw [hc1, h1]
        omega
      · intro j hj
        interval_cases j
        rw [hc0, addDays_zero]
        omega
  · exact ⟨0, by rw [skipWeekend, if_neg h5, hc0, addDays_zero],
      by rw [hc0, addDays_zero]; omega,
      by omega⟩

/-- Regex ^(\d{1,2}):(\d{2})$ of app/recurrence.py, with int() conversion of
both groups. Char.isDigit covers ASCII digits, the case the regex is written
for. -/
def matchHHMM (r : String) : Option (Nat × Nat) :=
  match r.data with
  | [a, c, m1, m2] =>
    if a.isDigit && (c == ':') && m1.isDigit && m2.isDigit then
      some (a.toNat - 48, (m1.toNat - 48) * 10 + (m2.toNat - 48))
    else none
  | [a, b, c, m1, m2] =>
    if a.isDigit && b.isDigit && (c == ':') && m1.isDigit && m2.isDigit then
      some ((a.toNat - 48) * 10 + (b.toNat - 48),
            (m1.toNat - 48) * 10 + (m2.toNat - 48))
    else none
  | _ => none

/-- calculate_next_occurrence (app/recurrence.py lines 9-57). -/
def calculate_next_occurrence (base_time : PyDateTime) (rule : String) :
    Option PyDateTime :=
  if pyLower (pyStrip rule) = "daily" ∨ pyLower (pyStrip rule) = "每天" then
    some (addDays base_time 1)
  else if pyLower (pyStrip rule) = "weekly" ∨ pyLower (pyStrip rule) = "每周" then
    some (addDays base_time 7)
  else if pyLower (pyStrip rule) = "monthly" ∨ pyLower (pyStrip rule) = "每月" then
    some (addDays base_time 30)
  else if pyLower (pyStrip rule) = "weekdays" ∨ pyLower (pyStrip rule) = "工作日" then
    some (skipWeekend (addDays base_time 1))
  else
    match matchHHMM (pyLower (pyStrip rule)) with
    | some (h, m) =>
      if h ≤ 23 ∧ m ≤ 59 then
        if (base_time.replaceTime h m).toMicros ≤ base_time.toMicros then
          some (addDays (base_time.replaceTime h m) 1)
        else some (base_time.replaceTime h m)
      else none
    | none => none

/-- The named recurrence rules accepted by calculate_next_occurrence. -/
def namedRule (r : String) : Bool :=
  r == "daily" || r == "每天" || r == "weekly" || r == "每周" ||
  r == "monthly" || r == "每月" || r == "weekdays" || r == "工作日"

theorem named_not_hhmm :
    ∀ s ∈ (["daily", "每天", "weekly", "每周", "monthly", "每月",
        "weekdays", "工作日"] : List String), matchHHMM s = none := by
  decide

/-- C6: calculate_next_occurrence trims and case-folds the rule and returns
base_time + 1 day for daily/每天, + 7 days for weekly/每周, + 30 days for
monthly/每月; for weekdays/工作日 it adds at least one day, repeatedly, until
the weekday is Monday-Friday; for a valid HH:MM it returns the same calendar
day at that clock time, rolled to the next day when not after base_time; and
none for every other rule. -/
theorem C6_next_occurrence (t : PyDateTime) (rule : String) :
    ((pyLower (pyStrip rule) = "daily" ∨ pyLower (pyStrip rule) = "每天") →
      calculate_next_occurrence t rule = some (addDays t 1)) ∧
    ((pyLower (pyStrip rule) = "weekly" ∨ pyLower (pyStrip rule) = "每周") →
      calculate_next_occurrence t rule = some (addDays t 7)) ∧
    ((pyLower (pyStrip rule) = "monthly" ∨ pyLower (pyStrip rule) = "每月") →
      calculate_next_occurrence t rule = some (addDays t 30)) ∧
    ((pyLower (pyStrip rule) = "weekdays" ∨ pyLower (pyStrip rule) = "工作日") →
      ∃ k : Nat, 1 ≤ k ∧ calculate_next_occurrence t rule = some (addDays t k) ∧
        weekday (addDays t k) < 5 ∧
        ∀ j : Nat, 1 ≤ j → j < k → 5 ≤ weekday (addDays t j)) ∧
    (∀ h m : Nat, matchHHMM (pyLower (pyStrip rule)) = some (h, m) →
      h ≤ 23 → m ≤ 59 →
      calculate_next_occurrence t rule =
        if (t.replaceTime h m).toMicros ≤ t.toMicros then
          some (addDays (t.replaceTime h m) 1)
        else some (t.replaceTime h m)) ∧
    (namedRule (pyLower (pyStrip rule)) = false →
      (∀ h m : Nat, matchHHMM (pyLower (pyStrip rule)) = some (h, m) →
        23 < h ∨ 59 < m) →
      calculate_next_occurrence t rule = none) := by
  refine ⟨?_, ?_, ?_, ?_, ?_, ?_⟩
  · intro hr
    unfold calculate_next_occurrence
    rw [if_pos hr]
  · intro hr
    have hn1 : ¬(pyLower (pyStrip rule) = "daily" ∨
        pyLower (pyStrip rule) = "每天") := by
      rcases hr with h | h <;> rw [h] <;> decide
    unfold calculate_next_occurrence
    rw [if_neg hn1, if_pos hr]
  · intro hr
    have hn1 : ¬(pyLower (pyStrip rule) = "daily" ∨
        pyLower (pyStrip rule) = "每天") := by
      rcases hr with h | h <;> rw [h] <;> decide
    have hn2 : ¬(pyLower (pyStrip rule) = "weekly" ∨
        pyLower (pyStrip rule) = "每周") := by
      rcases hr with h | h <;> rw [h] <;> decide
    unfold calculate_next_occurrence
    rw [if_neg hn1, if_neg hn2, if_pos hr]
  · intro hr
    have hn1 : ¬(pyLower (pyStrip rule) = "daily" ∨
        pyLower (pyStrip rule) = "每天") := by
      rcases hr with h | h <;> rw [h] <;> decide
    have hn2 : ¬(pyLower (pyStrip rule) = "weekly" ∨
        pyLower (pyStrip rule) = "每周") := by
      rcases hr with h | h <;> rw [h] <;> decide
    have hn3 : ¬(pyLower (pyStrip rule) = "monthly" ∨
        pyLower (pyStrip rule) = "每月") := by
      rcases hr with h | h <;> rw [h] <;> decide
    obtain ⟨d, hd1, hd2, hd3⟩ := skipWeekend_eq (addDays t 1)
    refine ⟨d + 1, by omega, ?_, ?_, ?_⟩
    · unfold calculate_next_occurrence
      rw [if_neg hn1, if_neg hn2, if_neg hn3, if_pos hr, hd1, addDays_addDays]
      congr 2
      push_cast
      ring
    · have he : addDays t ((d + 1 : Nat) : Int) = addDays (addDays t 1) d := by
        rw [addDays_addDays]
        congr 1
        push_cast
        ring
      rw [he]
      exact hd2
    · intro j hj1 hjk
      obtain ⟨i, rfl⟩ : ∃ i, j = i + 1 := ⟨j - 1, by omega⟩
      have he : addDays t ((i + 1 : Nat) : Int) = addDays (addDays t 1) i := by
        rw [addDays_addDays]
        congr 1
        push_cast
        ring
      rw [he]
      exact hd3 i (by omega)
  · intro h m hm hh23 hm59
    have hni : ∀ s ∈ (["daily", "每天", "weekly", "每周", "monthly", "每月",
        "weekdays", "工作日"] : List String), pyLower (pyStrip rule) ≠ s := by
      intro s hs he
      rw [he, named_not_hhmm s hs] at hm
      exact Option.noConfusion hm
    have hn1 : ¬(pyLower (pyStrip rule) = "daily" ∨
        pyLower (pyStrip rule) = "每天") := by
      rintro (he | he)
      · exact hni "daily" (by decide) he
      · exact hni "每天" (by decide) he
    have hn2 : ¬(pyLower (pyStrip rule) = "weekly" ∨
        pyLower (pyStrip rule) = "每周") := by
      rintro (he | he)
      · exact hni "weekly" (by decide) he
      · exact hni "每周" (by decide) he
    have hn3 : ¬(pyLower (pyStrip rule) = "monthly" ∨
        pyLower (pyStrip rule) = "每月") := by
      rintro (he | he)
      · exact hni "monthly" (by decide) he
      · exact hni "每月" (by decide) he
    have hn4 : ¬(pyLower (pyStrip rule) = "weekdays" ∨
        pyLower (pyStrip rule) = "工作日") := by
      rintro (he | he)
      · exact hni "weekdays" (by decide) he
      · exact hni "工作日" (by decide) he
    unfold calculate_next_occurrence
    rw [if_neg hn1, if_neg hn2, if_neg hn3, if_neg hn4, hm]
    dsimp only
    rw [if_pos ⟨hh23, hm59⟩]
  · intro hnamed hbad
    unfold namedRule at hnamed
    simp only [Bool.or_eq_false_iff, beq_eq_false_iff_ne, ne_eq] at hnamed
    obtain ⟨⟨⟨⟨⟨⟨⟨h1, h2⟩, h3⟩, h4⟩, h5⟩, h6⟩, h7⟩, h8⟩ := hnamed
    have hn1 : ¬(pyLower (pyStrip rule) = "daily" ∨
        pyLower (pyStrip rule) = "每天") := by
      rintro (he | he)
      · exact h1 he
      · exact h2 he
    have hn2 : ¬(pyLower (pyStrip rule) = "weekly" ∨
        pyLower (pyStrip rule) = "每周") := by
      rintro (he | he)
      · exact h3 he
      · exact h4 he
    have hn3 : ¬(pyLower (pyStrip rule) = "monthly" ∨
        pyLower (pyStrip rule) = "每月") := by
      rintro (he | he)
      · exact h5 he
      · exact h6 he
    have hn4 : ¬(pyLower (pyStrip rule) = "weekdays" ∨
        pyLower (pyStrip rule) = "工作日") := by
      rintro (he | he)
      · exact h7 he
      · exact h8 he
    unfold calculate_next_occurrence
    rw [if_neg hn1, if_neg hn2, if_neg hn3, if_neg hn4]
    cases hmmv : matchHHMM (pyLower (pyStrip rule)) with
    | none => rfl
    | some p =>
      obtain ⟨h, m⟩ := p
      dsimp only
      have hb := hbad h m hmmv
      rw [if_neg (by rintro ⟨ha, hb2⟩; omega)]

/-- Witness for C6: a normalized " Daily " rule adds one day; 08:00 at 10:30
rolls and replaces the clock time per the HH:MM branch. -/
theorem C6_witness :
    (calculate_next_occurrence ⟨0, 10, 30, 0, 0⟩ " Daily "
        = some (addDays ⟨0, 10, 30, 0, 0⟩ 1)) ∧
    (calculate_next_occurrence ⟨0, 10, 30, 0, 0⟩ "08:00"
        = if (PyDateTime.replaceTime ⟨0, 10, 30, 0, 0⟩ 8 0).toMicros
              ≤ (⟨0, 10, 30, 0, 0⟩ : PyDateTime).toMicros then
            some (addDays (PyDateTime.replaceTime ⟨0, 10, 30, 0, 0⟩ 8 0) 1)
          else some (PyDateTime.replaceTime ⟨0, 10, 30, 0, 0⟩ 8 0)) :=
  ⟨(C6_next_occurrence ⟨0, 10, 30, 0, 0⟩ " Daily ").1 (Or.inl (by decide)),
   (C6_next_occurrence ⟨0, 10, 30, 0, 0⟩ "08:00").2.2.2.2.1 8 0
      (by decide) (by decide) (by decide)⟩

/-! ### Session state (app/session.py), pipeline (app/pipeline.py),
message router and connection handler (app/ws_server.py) -/

/-- Per-connection session state (app/session.py). The asyncio task handle
_process_task is modelled by its liveness bit; the music task handle and the
pause event carry no information the claims touch. -/
structure Session where
  device_id : String
  session_id : String
  opus_packets : List Frame
  listening : Bool
  tts_abort : Bool
  processing : Bool
  listen_mode : Option String
  protocol_version : Nat
  hasLiveTask : Bool
  first_activity_time : Nat
  last_activity_time : Nat
  music_playing : Bool
  music_paused : Bool
  music_abort : Bool
  music_title : String
deriving DecidableEq

/-- Session.touch with the current monotonic reading. -/
def Session.touch (s : Session) (now : Nat) : Session :=
  { s with last_activity_time := now }

/-- Outbound JSON text messages, in structured form. The constant feature
flags of the hello reply are omitted. -/
inductive OutText where
  | errorMsg (message : String)
  | helloResp (session_id : String) (sample_rate channels : Nat)
      (codec : String) (frame_duration_ms : Nat) (version : Nat)
  | asrText (text : String)
  | ttsStart (text : String)
  | ttsEnd (reason : Option String)
  | pong
deriving DecidableEq

/-- Provider stages of the pipeline. -/
inductive StageTag where
  | decode
  | asr
  | llm
  | tts
deriving DecidableEq

/-- Observable effects of the pipeline and of the message router. -/
inductive Eff where
  | sendText (m : OutText)
  | sendAudio (r : SendRec)
  | stage (t : StageTag)
  | launch
deriving DecidableEq

/-- The audio-frame sends of an effect trace. -/
def audioEffs (l : List Eff) : List SendRec :=
  l.filterMap fun e =>
    match e with
    | .sendAudio r => some r
    | _ => none

/-- External outcomes of one pipeline run: results of opus decode, ASR, LLM
and TTS (exceptions carried as error strings), the values of session.tts_abort
and ws.closed observed at the four abort checkpoints, the safe-send result for
tts_start, the drain oracles, the value of session.tts_abort read after the
stream, and the await point at which a hard task cancellation lands (none for
an uncancelled run). -/
structure PipelineOracles where
  decodeRes : Except String (List Nat)
  asrRes : Except String String
  llmRes : Except String String
  ttsRes : Except String (List Frame)
  abortAt : Fin 4 → Bool
  closedAt : Fin 4 → Bool
  ttsStartOk : Bool
  drainAbort : Nat → Bool
  drainSend : Nat → Bool
  drainNow : Nat → Nat
  ttsAbortAfterDrain : Bool
  cancelAt : Option Nat

/-- _process_asr_llm_tts (app/pipeline.py lines 105-181): opus decode, the
abort checkpoints, ASR (asr_text emitted before the empty-text check), LLM,
TTS synthesis. Returns the emitted effects and the optional
(opus_packets, reply) pair. -/
def processAsrLlmTts (o : PipelineOracles) :
    List Eff × Option (List Frame × String) :=
  match o.decodeRes with
  | .error e =>
    ([.stage .decode, .sendText (.errorMsg ("Opus decode failed: " ++ e))], none)
  | .ok _ =>
    if o.abortAt 0 || o.closedAt 0 then ([.stage .decode], none)
    else
      match o.asrRes with
      | .error e =>
        ([.stage .decode, .stage .asr,
          .sendText (.errorMsg ("ASR failed: " ++ e))], none)
      | .ok text =>
        if text = "" ∨ pyStrip text = "" then
          ([.stage .decode, .stage .asr, .sendText (.asrText text)], none)
        else if o.abortAt 1 || o.closedAt 1 then
          ([.stage .decode, .stage .asr, .sendText (.asrText text)], none)
        else
          match o.llmRes with
          | .error e =>
            ([.stage .decode, .stage .asr, .sendText (.asrText text),
              .stage .llm, .sendText (.errorMsg ("LLM failed: " ++ e))], none)
          | .ok reply =>
            if o.abortAt 2 || o.closedAt 2 then
              ([.stage .decode, .stage .asr, .sendText (.asrText text),
                .stage .llm], none)
            else
              match o.ttsRes with
              | .error e =>
                ([.stage .decode, .stage .asr, .sendText (.asrText text),
                  .stage .llm, .stage .tts,
                  .sendText (.errorMsg ("TTS failed: " ++ e))], none)
              | .ok packets =>
                if o.abortAt 3 || o.closedAt 3 then
                  ([.stage .decode, .stage .asr, .sendText (.asrText text),
                    .stage .llm, .stage .tts], none)
                else
                  ([.stage .decode, .stage .asr, .sendText (.asrText text),
                    .stage .llm, .stage .tts], some (packets, reply))

/-- Effect-trace truncation by a hard cancellation point. -/
def truncAt (c : Option Nat) (l : List Eff) : List Eff :=
  match c with
  | none => l
  | some n => l.take n

/-- run_pipeline (app/pipeline.py lines 36-86) with
_stream_with_rate_control: empty-buffer guard, processing flag set and reset
in the finally block, tts_start via the safe sender, rate-controlled
streaming, tts_end unless tts_abort. The keepalive task emits protocol pings
only, never data frames, and is omitted. A hard cancellation truncates the
effect trace; the finally block still resets the processing flag. -/
def runPipelineModel (D : Nat) (s : Session) (o : PipelineOracles) :
    Session × List Eff :=
  if s.opus_packets.isEmpty then
    (s, truncAt o.cancelAt [Eff.sendText (.errorMsg "empty audio")])
  else
    match processAsrLlmTts o with
    | (pEffs, none) => ({ s with processing := false }, truncAt o.cancelAt pEffs)
    | (pEffs, some (packets, reply)) =>
      if o.ttsStartOk = false then
        ({ s with processing := false },
         truncAt o.cancelAt (pEffs ++ [Eff.sendText (.ttsStart reply)]))
      else
        ({ s with processing := false },
         truncAt o.cancelAt
           (pEffs ++ [Eff.sendText (.ttsStart reply)]
             ++ ((drain D packets o.drainAbort o.drainSend o.drainNow).2.1.filterMap
                  fun ev =>
                    match ev with
                    | .send r => some (Eff.sendAudio r)
                    | .check _ _ => none)
             ++ (if o.ttsAbortAfterDrain = false then
                  [Eff.sendText (.ttsEnd none)]
                 else [])))

/-- _launch_pipeline (app/ws_server.py lines 96-104): ignored while
processing is true; otherwise a previous unfinished task is cancelled and a
new pipeline task is created. The boolean reports whether a task was
created. -/
def launchPipelineModel (s : Session) : Session × Bool :=
  if s.processing then (s, false)
  else ({ s with hasLiveTask := true }, true)

/-- The JSON payload fields read by handle_text_message; an absent key is
none. -/
structure Payload where
  type? : Option String
  listen_mode? : Option String
  mode? : Option String
  state? : Option String
  reason? : Option String
  text? : Option String
deriving DecidableEq

/-- An inbound text frame as the router sees it: json.loads failure, valid
JSON that is not an object (payload.get then raises AttributeError, which
propagates to the connection loop), or an object. -/
inductive TextIn where
  | malformed
  | nonObject
  | obj (p : Payload)
deriving DecidableEq

/-- Python truthiness of an optional string field. -/
def truthy : Option String → Bool
  | none => false
  | some v => v != ""

/-- handle_text_message (app/ws_server.py lines 23-93). Returns the updated
session, the emitted effects, and whether an exception propagates to the
connection loop. -/
def handle_text_message (now sampleRate channels frameDur : Nat)
    (s : Session) (msg : TextIn) : Session × List Eff × Bool :=
  match msg with
  | .malformed => (s, [Eff.sendText (.errorMsg "invalid json")], false)
  | .nonObject => (s, [], true)
  | .obj p =>
    let s1 := s.touch now
    if p.type? = some "hello" then
      let s2 := if truthy p.listen_mode? then
          { s1 with listen_mode := p.listen_mode?, protocol_version := 2 }
        else s1
      (s2, [Eff.sendText (.helloResp s2.session_id sampleRate channels "opus"
          frameDur s2.protocol_version)], false)
    else if p.type? = some "audio_start" then
      ({ s1 with opus_packets := [], listening := true, tts_abort := false },
       [], false)
    else if p.type? = some "audio_end" then
      ((launchPipelineModel { s1 with listening := false }).1,
       if (launchPipelineModel { s1 with listening := false }).2 then
         [Eff.launch]
       else [], false)
    else if p.type? = some "listen" then
      if p.state? = some "detect" then (s1, [], false)
      else if p.state? = some "start" then
        if truthy p.mode? then
          ({ s1 with
              listen_mode := p.mode?
              opus_packets := []
              listening := true
              tts_abort := false }, [], false)
        else
          ({ s1 with
              opus_packets := []
              listening := true
              tts_abort := false }, [], false)
      else if p.state? = some "stop" then
        ((launchPipelineModel { s1 with listening := false }).1,
         if (launchPipelineModel { s1 with listening := false }).2 then
           [Eff.launch]
         else [], false)
      else (s1, [], false)
    else if p.type? = some "abort" then
      ({ s1 with tts_abort := true },
       [Eff.sendText (.ttsEnd (some "abort"))], false)
    else if p.type? = some "ping" then
      (s1, [Eff.sendText .pong], false)
    else (s1, [], false)

/-- Connection-level actions of handle_client. -/
inductive ClientAct where
  | sendErr (message : String)
  | closeSock (code : Nat) (reason : String)
  | createSession
  | registryRegister (d : String)
  | registryRemove (d : String)
  | cancelTask
  | resetConversation
deriving DecidableEq

/-- Python falsiness of a request-header value. -/
def headerFalsy : Option String → Bool
  | none => true
  | some v => v == ""

/-- handle_client (app/ws_server.py lines 126-171): credential check,
session construction, the message loop (routed through handle_text_message,
which performs no registry operation), and the finally block (tts_abort,
2-second grace then force-cancel, conversation reset). tokenValid models
registry.is_valid, taskLive whether a pipeline task is unfinished at
disconnect, graceOk whether it finishes within the grace period. -/
def handle_client (deviceId token : Option String) (tokenValid : Bool)
    (taskLive graceOk : Bool) : List ClientAct :=
  if headerFalsy deviceId || headerFalsy token then
    [ClientAct.sendErr "missing device_id/token",
     ClientAct.closeSock 4401 "missing credentials"]
  else if tokenValid = false then
    [ClientAct.sendErr "invalid token",
     ClientAct.closeSock 4401 "invalid token"]
  else
    [ClientAct.createSession]
      ++ (if taskLive && !graceOk then [ClientAct.cancelTask] else [])
      ++ [ClientAct.resetConversation]

/-- A concrete idle session for witnesses. -/
def sampleSession : Session :=
  { device_id := "dev1", session_id := "abcd1234", opus_packets := [[1]],
    listening := false, tts_abort := true, processing := false,
    listen_mode := none, protocol_version := 1, hasLiveTask := false,
    first_activity_time := 0, last_activity_time := 0, music_playing := false,
    music_paused := false, music_abort := false, music_title := "" }

/-- A concrete session with an active pipeline, for witnesses. -/
def busySession : Session := { sampleSession with processing := true }

/-- A concrete session with an empty audio buffer, for witnesses. -/
def emptyBufSession : Session := { sampleSession with opus_packets := [] }

/-- Concrete pipeline oracles whose abort checkpoints all read true. -/
def abortedOracles : PipelineOracles :=
  { decodeRes := .ok [0], asrRes := .ok "hi", llmRes := .ok "ok",
    ttsRes := .ok [[2]], abortAt := fun _ => true, closedAt := fun _ => false,
    ttsStartOk := true, drainAbort := fun _ => true,
    drainSend := fun _ => true, drainNow := fun _ => 0,
    ttsAbortAfterDrain := true, cancelAt := none }

/-- The ASR/LLM/TTS stage emits text messages and stage markers only, never
binary audio. -/
theorem process_no_audio (o : PipelineOracles) :
    audioEffs (processAsrLlmTts o).1 = [] := by
  unfold processAsrLlmTts
  repeat' split
  all_goals simp [audioEffs]

/-- A true tts_abort observation at any checkpoint makes the stage return
none. -/
theorem process_abort_none (o : PipelineOracles) (i : Fin 4)
    (hi : o.abortAt i = true) : (processAsrLlmTts o).2 = none := by
  unfold processAsrLlmTts
  repeat' split
  all_goals try rfl
  exfalso
  rename_i h0 _ _ h1 _ h2 _ h3
  fin_cases i <;> simp_all

/-- Truncation preserves the absence of audio frames. -/
theorem audioEffs_truncAt (c : Option Nat) (l : List Eff)
    (h : audioEffs l = []) : audioEffs (truncAt c l) = [] := by
  cases c with
  | none => exact h
  | some n =>
    have ht : truncAt (some n) l = l.take n := rfl
    rw [ht]
    unfold audioEffs at h ⊢
    rw [List.filterMap_eq_nil_iff] at h ⊢
    intro a ha
    exact h a (List.take_subset n l ha)

/-- C1: once session.tts_abort reads true at a pipeline checkpoint, the run
emits no outbound binary audio frame at all (the pipeline returns before
synthesis / streaming); and drain evaluates the abort predicate before each
send, so an abort observation at iteration k precludes every send from
iteration k on. -/
theorem C1_abort_stops_audio :
    (∀ (D : Nat) (s : Session) (o : PipelineOracles),
      (∃ i : Fin 4, o.abortAt i = true) →
      audioEffs (runPipelineModel D s o).2 = []) ∧
    (∀ (D : Nat) (frames : List Frame) (abortO sendO : Nat → Bool)
        (nowO : Nat → Nat) (k : Nat), abortO k = true →
      ∀ rec ∈ sendRecs (drain D frames abortO sendO nowO).2.1, rec.idx < k) := by
  constructor
  · rintro D s o ⟨i, hi⟩
    unfold runPipelineModel
    by_cases hemp : s.opus_packets.isEmpty
    · rw [if_pos hemp]
      exact audioEffs_truncAt _ _ (by simp [audioEffs])
    · rw [if_neg hemp]
      have hnone := process_abort_none o i hi
      have hnoaudio := process_no_audio o
      rcases hp : processAsrLlmTts o with ⟨pEffs, res⟩
      rw [hp] at hnone hnoaudio
      simp only at hnone hnoaudio
      subst hnone
      exact audioEffs_truncAt o.cancelAt pEffs hnoaudio
  · intro D frames abortO sendO nowO k hk rec hrec
    unfold drain at hrec
    by_cases h0 : frames.length = 0
    · rw [if_pos h0] at hrec
      simp [sendRecs_nil] at hrec
    · rw [if_neg h0] at hrec
      by_contra hcon
      push_neg at hcon
      have := drainGo_abort_false D abortO sendO nowO frames 0 0 0 rec hrec k
        (Nat.zero_le k) hcon
      simp [hk] at this

/-- Witness for C1: with every checkpoint reading tts_abort = true the run
emits no audio; with the drain abort predicate true from iteration 0 no
send is recorded. -/
theorem C1_witness :
    audioEffs (runPipelineModel 60 sampleSession abortedOracles).2 = [] ∧
    (∀ rec ∈ sendRecs (drain 60 [[0]] (fun _ => true) (fun _ => true)
        (fun _ => 0)).2.1, rec.idx < 0) :=
  ⟨C1_abort_stops_audio.1 60 sampleSession abortedOracles ⟨0, rfl⟩,
   C1_abort_stops_audio.2 60 [[0]] (fun _ => true) (fun _ => true)
     (fun _ => 0) 0 rfl⟩

/-- C7: a pipeline launch requested while processing is true is ignored (the
session is unchanged and no task is created), and the processing flag is
false after every pipeline exit path, including stage failures and hard
cancellation, whenever the pipeline was launchable. -/
theorem C7_single_pipeline :
    (∀ s : Session, s.processing = true → launchPipelineModel s = (s, false)) ∧
    (∀ (D : Nat) (s : Session) (o : PipelineOracles), s.processing = false →
      ((runPipelineModel D s o).1).processing = false) := by
  constructor
  · intro s hs
    unfold launchPipelineModel
    rw [if_pos hs]
  · intro D s o hs
    unfold runPipelineModel
    by_cases hemp : s.opus_packets.isEmpty
    · rw [if_pos hemp]
      exact hs
    · rw [if_neg hemp]
      rcases hp : processAsrLlmTts o with ⟨pEffs, res⟩
      cases res with
      | none => rfl
      | some pr =>
        obtain ⟨packets, reply⟩ := pr
        dsimp only
        split <;> rfl

/-- Witness for C7: launching on a busy session changes nothing; an aborted
run on an idle session leaves processing false. -/
theorem C7_witness :
    launchPipelineModel busySession = (busySession, false) ∧
    ((runPipelineModel 60 sampleSession abortedOracles).1).processing = false :=
  ⟨C7_single_pipeline.1 busySession rfl,
   C7_single_pipeline.2 60 sampleSession abortedOracles rfl⟩

/-- C9: a pipeline started on an empty opus buffer (without a hard
cancellation in flight) sends exactly the single error message
"empty audio" and leaves the session untouched: no stage marker appears in
the trace and the processing flag is never set. -/
theorem C9_empty_buffer (D : Nat) (s : Session) (o : PipelineOracles)
    (hemp : s.opus_packets = []) (hcancel : o.cancelAt = none) :
    runPipelineModel D s o = (s, [Eff.sendText (.errorMsg "empty audio")]) := by
  unfold runPipelineModel
  rw [if_pos (by simp [hemp]), hcancel]
  rfl

/-- Witness for C9 on a concrete session with an empty buffer. -/
theorem C9_witness :
    runPipelineModel 60 emptyBufSession abortedOracles
      = (emptyBufSession, [Eff.sendText (.errorMsg "empty audio")]) :=
  C9_empty_buffer 60 emptyBufSession abortedOracles rfl rfl

/-- C5 as stated is false on the code: a JSON object with the unknown type
"bogus" produces no outbound message at all (the if/elif chain has no else
branch), while the claim requires an error message; the router still
continues without raising. -/
theorem C5_counterexample :
    (handle_text_message 5 16000 1 60 sampleSession
        (.obj ⟨some "bogus", none, none, none, none, none⟩)).2.1 = [] ∧
    (handle_text_message 5 16000 1 60 sampleSession
        (.obj ⟨some "bogus", none, none, none, none, none⟩)).2.2 = false :=
  ⟨rfl, rfl⟩

/-- C5 (amended): invalid JSON draws the error message "invalid json" and
the router returns normally; a JSON object whose type is none of hello,
audio_start, audio_end, listen, abort, ping is ignored silently: no message
is emitted, only the activity timestamp changes, and the router returns
normally, so the connection stays open. -/
theorem C5_router_errors (now sampleRate channels frameDur : Nat)
    (s : Session) :
    (handle_text_message now sampleRate channels frameDur s .malformed
        = (s, [Eff.sendText (.errorMsg "invalid json")], false)) ∧
    (∀ p : Payload,
      (∀ t ∈ (["hello", "audio_start", "audio_end", "listen", "abort",
          "ping"] : List String), p.type? ≠ some t) →
      handle_text_message now sampleRate channels frameDur s (.obj p)
        = (s.touch now, [], false)) := by
  constructor
  · rfl
  · intro p hp
    unfold handle_text_message
    simp only
    rw [if_neg (hp "hello" (by decide)), if_neg (hp "audio_start" (by decide)),
      if_neg (hp "audio_end" (by decide)), if_neg (hp "listen" (by decide)),
      if_neg (hp "abort" (by decide)), if_neg (hp "ping" (by decide))]

/-- Witness for C5 (amended) at a concrete unknown-type payload. -/
theorem C5_witness :
    handle_text_message 5 16000 1 60 sampleSession
        (.obj ⟨some "status", none, none, none, none, none⟩)
      = (sampleSession.touch 5, [], false) :=
  (C5_router_errors 5 16000 1 60 sampleSession).2
    ⟨some "status", none, none, none, none, none⟩ (by decide)

/-- C4: the connection-level action trace of a successfully authenticated
connection, from accept to disconnect, contains no connection-registry
operation: handle_client never registers (socket, session) under the
device_id and never removes such an entry, contrary to the claim (and
ws_server defines no get_active_connection although scheduler.py imports
it). -/
theorem C4_no_registry_registration :
    handle_client (some "dev1") (some "tok1") true true true
      = [ClientAct.createSession, ClientAct.resetConversation] := rfl

end EchoEar
